import Mathlib

/-
  Verification of the JSON serialisation shim (antismash/common/json.py) and the
  static classification table (antismash/common/cluster_class.py).

  Modelling overview.
  Python values that can reach the serialiser are embedded as the inductive type
  PyVal.  Wrapper instances of the JSONBase classes are embedded by the `view`
  constructor, carrying the runtime class name, the declared key list stored as
  the `_keys` attribute, the remaining instance attribute dictionary, and the
  inherited (plain-dict) key/value storage.  Objects of other classes are
  embedded by `pyobj` with the optional results of their `to_json` and
  `__json__` methods, and Bio `Seq` objects by `seq` with their string form.

  Functions translated from the source: `_base_convertor`,
  `_convert_std_to_orson`, the `JSONBase` mapping protocol
  (`__getitem__`, `items`, `values`, `__len__`), `JSONDomain.__init__`,
  `JSONOrf.__init__`, `JSONOrf.add_domain`, and the literal
  `cluster_class_dict`.  The underlying orjson encoder and parser are not part
  of this repository; they are modelled from the specification (see the doc
  comments on `encodeVal`, `loads` and the `OPT` constants).

  Exceptions are modelled by the error type PyErr; a raise is an `Except.error`
  result (for the mutating `add_domain`, a returned error paired with the
  unchanged receiver state).
-/

set_option autoImplicit false
set_option linter.unusedVariables false

/-- Shape of a JSON document, the output of the encoder: null, booleans,
integer numbers, strings, arrays, and objects with ordered string keys. -/
inductive Json where
  | null
  | jbool (b : Bool)
  | jint (n : Int)
  | jstr (s : String)
  | jarr (xs : List Json)
  | jobj (kvs : List (String × Json))

/-- Embedding of the Python values that can reach the serialisation adapter.
`view` embeds instances of the JSONBase wrapper classes: runtime class name,
the declared key list (the `_keys` attribute), the other instance attributes in
assignment order, and the inherited plain-dict storage.  `seq` embeds a Bio
`Seq` object via its string form, and `pyobj` any other object, carrying the
results its `to_json` and `__json__` methods would return when present. -/
inductive PyVal where
  | none
  | bool (b : Bool)
  | int (n : Int)
  | str (s : String)
  | pylist (xs : List PyVal)
  | pytuple (xs : List PyVal)
  | pydict (kvs : List (PyVal × PyVal))
  | seq (s : String) (tj dj : Option PyVal)
  | pyobj (ty : String) (tj dj : Option PyVal)
  | view (cls : String) (decl : List String) (attrs : List (String × PyVal)) (store : List (PyVal × PyVal))

/-- Python exceptions raised by the code under verification.  `typeError` is the
bare TypeError raised by `_base_convertor`; `jsonEncodeError` is the error the
encoder raises for an unconvertible object, carrying the name of the offending
type (the TypeConversionError of the spec); `attributeError` is raised by
attribute lookup on a missing attribute; `assertionError` by a failed assert
(the TypeMismatchError of the spec). -/
inductive PyErr where
  | typeError
  | jsonEncodeError (ty : String)
  | attributeError (name : String)
  | assertionError
  deriving DecidableEq

mutual

/-- Structural size measure on PyVal, used only to justify termination of the
recursive encoder.  The weights are chosen so that every value the encoder
recurses into is smaller than the value it came from. -/
def psize : PyVal → Nat
  | .none => 1
  | .bool _ => 1
  | .int _ => 1
  | .str _ => 1
  | .pylist xs => 1 + psizeList xs
  | .pytuple xs => 1 + psizeList xs
  | .pydict kvs => 1 + psizePairs kvs
  | .seq _ tj dj => 2 + psizeOpt tj + psizeOpt dj
  | .pyobj _ tj dj => 2 + psizeOpt tj + psizeOpt dj
  | .view _ decl attrs store => 2 + 3 * decl.length + psizeAttrs attrs + psizePairs store

/-- Size of a list of values (see `psize`). -/
def psizeList : List PyVal → Nat
  | [] => 0
  | x :: xs => 1 + psize x + psizeList xs

/-- Size of a key/value pair list (see `psize`). -/
def psizePairs : List (PyVal × PyVal) → Nat
  | [] => 0
  | (k, v) :: rest => 1 + psize k + psize v + psizePairs rest

/-- Size of an attribute dictionary (see `psize`). -/
def psizeAttrs : List (String × PyVal) → Nat
  | [] => 0
  | (_, v) :: rest => 1 + psize v + psizeAttrs rest

/-- Size of an optional value (see `psize`). -/
def psizeOpt : Option PyVal → Nat
  | Option.none => 0
  | some v => 1 + psize v

end

/-- Translation of the `isinstance(obj, Seq)` test of `_base_convertor`,
returning `str(obj)` when the object is a Seq. -/
def str_of_Seq : PyVal → Option String
  | .seq s _ _ => some s
  | _ => Option.none

/-- Translation of the `hasattr(obj, "to_json")` test of `_base_convertor`,
returning the result `obj.to_json()` would produce when the method exists. -/
def method_to_json : PyVal → Option PyVal
  | .seq _ (some r) _ => some r
  | .pyobj _ (some r) _ => some r
  | _ => Option.none

/-- Translation of the `hasattr(obj, "__json__")` test of `_base_convertor`,
returning the result `obj.__json__()` would produce when the method exists. -/
def method_json_dunder : PyVal → Option PyVal
  | .seq _ _ (some r) => some r
  | .pyobj _ _ (some r) => some r
  | _ => Option.none

/-- Translation of `_base_convertor` (json.py lines 31 to 40): Seq objects are
converted to their string form, otherwise a `to_json` method is invoked,
otherwise a `__json__` method, and otherwise a bare TypeError is raised. -/
def _base_convertor (obj : PyVal) : Except PyErr PyVal :=
  match str_of_Seq obj with
  | some s => .ok (.str s)
  | Option.none =>
    match method_to_json obj with
    | some r => .ok r
    | Option.none =>
      match method_json_dunder obj with
      | some r => .ok r
      | Option.none => .error .typeError

/-- Runtime type name of a value, as the encoder reports it in the error it
raises for an unconvertible object. -/
def py_type_name : PyVal → String
  | .none => "NoneType"
  | .bool _ => "bool"
  | .int _ => "int"
  | .str _ => "str"
  | .pylist _ => "list"
  | .pytuple _ => "tuple"
  | .pydict _ => "dict"
  | .seq _ _ _ => "Seq"
  | .pyobj ty _ _ => ty
  | .view cls _ _ _ => cls

/-- Translation of Python attribute lookup on a JSONBase instance: the instance
dictionary holds the `_keys` list assigned by `JSONBase.__init__` (exposed as a
list-of-strings value) together with the attributes the subclass constructors
assign.  Class-level methods are not modelled as attributes; none of the keys
handled by the source classes names a method. -/
def viewAttr (decl : List String) (attrs : List (String × PyVal)) (key : String) : Option PyVal :=
  if key = "_keys" then some (.pylist (decl.map .str)) else attrs.lookup key

/-- Attribute lookup `getattr(self, key)` on a wrapper instance (see
`viewAttr`); on a non-wrapper value the model returns nothing. -/
def JSONBase.getattr : PyVal → String → Option PyVal
  | .view _ decl attrs _, key => viewAttr decl attrs key
  | _, _ => Option.none

/-- Translation of `JSONBase.__getitem__` (json.py lines 91 to 92): indexing
delegates to `getattr(self, key)`, so a missing name raises AttributeError. -/
def JSONBase.getitem (self : PyVal) (key : String) : Except PyErr PyVal :=
  match JSONBase.getattr self key with
  | some v => .ok v
  | Option.none => .error (.attributeError key)

/-- Helper for `JSONBase.items`: reads `(key, getattr(self, key))` for each
declared key in order, raising AttributeError on a missing attribute. -/
def readDeclared (self : PyVal) : List String → Except PyErr (List (String × PyVal))
  | [] => .ok []
  | k :: ks =>
    match JSONBase.getattr self k with
    | some v =>
      match readDeclared self ks with
      | .ok rest => .ok ((k, v) :: rest)
      | .error e => .error e
    | Option.none => .error (.attributeError k)

/-- Translation of `JSONBase.items` (json.py lines 94 to 96): yields
`(key, getattr(self, key))` for each key of `self._keys` in declaration
order. -/
def JSONBase.items (self : PyVal) : Except PyErr (List (String × PyVal)) :=
  match self with
  | .view _ decl _ _ => readDeclared self decl
  | _ => .error .typeError

/-- Helper for `JSONBase.values`: reads `getattr(self, key)` for each declared
key in order. -/
def readDeclaredVals (self : PyVal) : List String → Except PyErr (List PyVal)
  | [] => .ok []
  | k :: ks =>
    match JSONBase.getattr self k with
    | some v =>
      match readDeclaredVals self ks with
      | .ok rest => .ok (v :: rest)
      | .error e => .error e
    | Option.none => .error (.attributeError k)

/-- Translation of `JSONBase.values` (json.py lines 98 to 100): yields
`getattr(self, key)` for each key of `self._keys` in declaration order. -/
def JSONBase.values (self : PyVal) : Except PyErr (List PyVal) :=
  match self with
  | .view _ decl _ _ => readDeclaredVals self decl
  | _ => .error .typeError

/-- Translation of `JSONBase.__len__` (json.py lines 102 to 103): the reported
size is the length of the declared key list `self._keys`. -/
def JSONBase.len : PyVal → Nat
  | .view _ decl _ _ => decl.length
  | _ => 0

/-- Inherited plain-dict storage of a wrapper instance, as iterating it as an
ordinary dict would enumerate it.  `JSONBase.__init__` calls
`super().__init__()`, leaving it empty. -/
def dict_storage : PyVal → List (PyVal × PyVal)
  | .view _ _ _ store => store
  | _ => []

/-- Translation of `JSONDomain.__init__` (json.py lines 106 to 119).  The
external domain feature supplies `domain.name`, `domain.start` and
`domain.end`; the constructor coerces them with `str` and `int`, so they are
taken here already in coerced form.  The declared key list and the attribute
assignments follow the source order. -/
def JSONDomain.init (name : String) (start : Int) (end_ : Int)
    (predictions : List (String × String))
    (napdos_link blast_link sequence dna : String) : PyVal :=
  .view "JSONDomain"
    ["type", "start", "end", "predictions", "napdoslink", "blastlink", "sequence", "dna_sequence"]
    [("type", .str name), ("start", .int start), ("end", .int end_),
     ("predictions", .pylist (predictions.map (fun p => .pytuple [.str p.1, .str p.2]))),
     ("napdoslink", .str napdos_link), ("blastlink", .str blast_link),
     ("sequence", .str sequence), ("dna_sequence", .str dna)]
    []

/-- State of a JSONOrf instance whose domain list currently holds `ds`:
declared keys `id`, `sequence`, `domains`, attributes in the assignment order
of `JSONOrf.__init__`, empty inherited dict storage.  Construction produces
this state with `ds = []` and `add_domain` extends `ds`, so these are exactly
the reachable JSONOrf states. -/
def JSONOrf.state (feature_name feature_translation : String) (ds : List PyVal) : PyVal :=
  .view "JSONOrf" ["id", "sequence", "domains"]
    [("sequence", .str feature_translation), ("id", .str feature_name),
     ("domains", .pylist ds)]
    []

/-- Translation of `JSONOrf.__init__` (json.py lines 124 to 128): the external
CDS feature supplies `feature.translation` and `feature.get_name()`; the
attributes `sequence`, `id` and an empty `domains` list are assigned in source
order. -/
def JSONOrf.init (feature_name feature_translation : String) : PyVal :=
  JSONOrf.state feature_name feature_translation []

/-- Translation of the `isinstance(domain, JSONDomain)` check of `add_domain`;
no subclasses of JSONDomain exist in the source, so the check is by runtime
class name. -/
def isinstance_JSONDomain : PyVal → Bool
  | .view cls _ _ _ => cls == "JSONDomain"
  | _ => false

/-- Functional update of an attribute dictionary, keeping the position of an
existing key. -/
def attrsSet : List (String × PyVal) → String → PyVal → List (String × PyVal)
  | [], k, v => [(k, v)]
  | (k0, v0) :: rest, k, v =>
    if k0 = k then (k0, v) :: rest else (k0, v0) :: attrsSet rest k v

/-- Translation of `JSONOrf.add_domain` (json.py lines 130 to 133): the assert
raises AssertionError for a non-JSONDomain argument before the list is
touched, otherwise the domain is appended to `self.domains`.  The result pairs
the receiver state after the call with the exception raised, if any; on an
exception the receiver is returned unchanged. -/
def JSONOrf.add_domain (self domain : PyVal) : PyVal × Option PyErr :=
  if isinstance_JSONDomain domain then
    match self with
    | .view cls decl attrs store =>
      match attrs.lookup "domains" with
      | some (.pylist ds) =>
        (.view cls decl (attrsSet attrs "domains" (.pylist (ds ++ [domain]))) store, Option.none)
      | _ => (self, some (.attributeError "append"))
    | _ => (self, some (.attributeError "domains"))
  else (self, some .assertionError)

/-- Modelled from the spec: the orjson option constants are pass-through bit
flags combined with bitwise or; their concrete numeric values live in the
external orjson package, so they are modelled as distinct bits. -/
def OPT_INDENT_2 : Nat := 2 ^ 0

/-- Modelled from the spec: see `OPT_INDENT_2`. -/
def OPT_NON_STR_KEYS : Nat := 2 ^ 1

/-- Modelled from the spec: see `OPT_INDENT_2`. -/
def OPT_SORT_KEYS : Nat := 2 ^ 2

/-- Translation of `_convert_std_to_orson` (json.py lines 43 to 50): the
non-string-key coercion flag is always set, the sort flag exactly on
`sort_keys`, the 2-space indent flag exactly on `indent`, all combined onto
the caller-supplied base option word. -/
def _convert_std_to_orson (sort_keys : Bool) (option : Nat) (indent : Bool) : Nat :=
  let option1 := option ||| OPT_NON_STR_KEYS
  let option2 := if sort_keys then option1 ||| OPT_SORT_KEYS else option1
  let option3 := if indent then option2 ||| OPT_INDENT_2 else option2
  option3

/-- Whether an option word includes a given flag. -/
def hasFlag (x flag : Nat) : Bool := x &&& flag == flag

/-- Modelled from the spec: string coercion of non-string mapping keys, as the
encoder applies it under the always-set non-string-key flag.  String keys pass
through; integers, booleans and null use their JSON spelling; container keys
are not coercible. -/
def keyToString : PyVal → Option String
  | .str s => some s
  | .int n => some (toString n)
  | .bool b => some (if b then "true" else "false")
  | .none => some "null"
  | _ => Option.none

/-- Bound on the size of a value found in an attribute dictionary. -/
theorem psize_lookup_lt (attrs : List (String × PyVal)) (k : String) (v : PyVal)
    (h : attrs.lookup k = some v) : psize v < psizeAttrs attrs := by
  induction attrs with
  | nil => simp [List.lookup] at h
  | cons p rest ih =>
    rw [List.lookup] at h
    split at h
    · cases h
      cases p
      simp [psizeAttrs]
      omega
    · have := ih h
      cases p
      simp [psizeAttrs]
      omega

/-- Size of the value representing the `_keys` attribute. -/
theorem psizeList_map_str (ks : List String) : psizeList (ks.map PyVal.str) = 2 * ks.length := by
  induction ks with
  | nil => simp [psizeList]
  | cons k rest ih =>
    simp [psizeList, psize, ih]
    omega

/-- Bound on the size of a value obtained by attribute lookup on a wrapper. -/
theorem psize_viewAttr_lt (decl : List String) (attrs : List (String × PyVal)) (k : String)
    (v : PyVal) (h : viewAttr decl attrs k = some v) :
    psize v < 2 + 2 * decl.length + psizeAttrs attrs := by
  unfold viewAttr at h
  split at h
  · cases h
    simp [psize, psizeList_map_str]
    omega
  · have := psize_lookup_lt attrs k v h
    omega

/-- The default hook only returns values smaller than its argument. -/
theorem base_convertor_psize (x r : PyVal) (h : _base_convertor x = .ok r) : psize r < psize x := by
  cases x
  case seq s tj dj =>
    simp [_base_convertor, str_of_Seq] at h
    subst h
    cases tj <;> cases dj <;> simp [psize, psizeOpt] <;> omega
  case pyobj ty tj dj =>
    cases tj
    case some p =>
      simp [_base_convertor, str_of_Seq, method_to_json] at h
      subst h
      cases dj <;> simp [psize, psizeOpt] <;> omega
    case none =>
      cases dj
      case some q =>
        simp [_base_convertor, str_of_Seq, method_to_json, method_json_dunder] at h
        subst h
        simp [psize, psizeOpt]
        omega
      case none =>
        simp [_base_convertor, str_of_Seq, method_to_json, method_json_dunder] at h
  all_goals simp [_base_convertor, str_of_Seq, method_to_json, method_json_dunder] at h

mutual

/-- Modelled from the spec: the core of the orjson encoder, which is external
to this repository, composed with the default hook `_base_convertor` that
`dumps` always installs.  Following the spec, built-in scalars, sequences and
mappings are encoded directly (with non-string mapping keys coerced to
strings, as the always-set non-string-key flag demands), a wrapper instance is
encoded as a mapping whose keys are exactly its declared key list in
declaration order with values read by attribute lookup, and any other object
is passed to the default hook, whose result is encoded in turn; if the hook
raises, encoding fails with an error naming the type of the offending
value. -/
def encodeVal : PyVal → Except PyErr Json
  | .none => .ok .null
  | .bool b => .ok (.jbool b)
  | .int n => .ok (.jint n)
  | .str s => .ok (.jstr s)
  | .pylist xs =>
    match encodeVals xs with
    | .ok js => .ok (.jarr js)
    | .error e => .error e
  | .pytuple xs =>
    match encodeVals xs with
    | .ok js => .ok (.jarr js)
    | .error e => .error e
  | .pydict kvs =>
    match encodePairs kvs with
    | .ok jkvs => .ok (.jobj jkvs)
    | .error e => .error e
  | .view cls decl attrs store =>
    match encodeDecl decl decl attrs with
    | .ok jkvs => .ok (.jobj jkvs)
    | .error e => .error e
  | .seq s tj dj =>
    match h : _base_convertor (.seq s tj dj) with
    | .ok r => encodeVal r
    | .error _ => .error (.jsonEncodeError (py_type_name (.seq s tj dj)))
  | .pyobj ty tj dj =>
    match h : _base_convertor (.pyobj ty tj dj) with
    | .ok r => encodeVal r
    | .error _ => .error (.jsonEncodeError (py_type_name (.pyobj ty tj dj)))
  termination_by v => psize v
  decreasing_by
  all_goals first
    | (simp [psize]; done)
    | (simp [psize]; omega)
    | (exact base_convertor_psize _ _ h)
    | (have hlt := base_convertor_psize _ _ h; omega)

/-- Encoding of the elements of a list or tuple, in order (see `encodeVal`). -/
def encodeVals : List PyVal → Except PyErr (List Json)
  | [] => .ok []
  | x :: xs =>
    match encodeVal x with
    | .error e => .error e
    | .ok j =>
      match encodeVals xs with
      | .error e => .error e
      | .ok js => .ok (j :: js)
  termination_by xs => psizeList xs
  decreasing_by
  all_goals first
    | (simp [psizeList]; done)
    | (simp [psizeList]; omega)

/-- Encoding of the entries of a dict in insertion order, coercing keys to
strings (see `encodeVal`). -/
def encodePairs : List (PyVal × PyVal) → Except PyErr (List (String × Json))
  | [] => .ok []
  | (k, v) :: rest =>
    match keyToString k with
    | some ks =>
      match encodeVal v with
      | .error e => .error e
      | .ok jv =>
        match encodePairs rest with
        | .error e => .error e
        | .ok jrest => .ok ((ks, jv) :: jrest)
    | Option.none => .error .typeError
  termination_by ps => psizePairs ps
  decreasing_by
  all_goals first
    | (simp [psizePairs]; done)
    | (simp [psizePairs]; omega)

/-- Encoding of a wrapper instance as a mapping: for each declared key in
order, the value read by attribute lookup is encoded; a missing attribute
raises AttributeError (see `encodeVal`).  The first argument is the full
declared list backing the `_keys` attribute, the second the suffix still to be
encoded. -/
def encodeDecl (decl : List String) : List String → List (String × PyVal) → Except PyErr (List (String × Json))
  | [], _ => .ok []
  | k :: ks, attrs =>
    match h : viewAttr decl attrs k with
    | some v =>
      match encodeVal v with
      | .error e => .error e
      | .ok jv =>
        match encodeDecl decl ks attrs with
        | .error e => .error e
        | .ok jrest => .ok ((k, jv) :: jrest)
    | Option.none => .error (.attributeError k)
  termination_by ks attrs => ks.length + 2 * decl.length + psizeAttrs attrs + 1
  decreasing_by
  all_goals first
    | (simp; done)
    | (simp; omega)
    | (have hlt := psize_viewAttr_lt decl attrs k v h; simp; omega)
    | (have hlt := psize_viewAttr_lt decl attrs k v h; omega)

end

/-- Translation of `dumps` (json.py lines 53 to 69) at the document level with
its default arguments: the object is encoded with the default hook
`_base_convertor`.  The option word built by `_convert_std_to_orson` is
modelled separately; with the defaults neither the sort flag nor the indent
flag is set, and indentation only affects whitespace of the rendered text, not
the document. -/
def dumps (obj : PyVal) : Except PyErr Json := encodeVal obj

mutual

/-- Modelled from the spec: the orjson parser behind `loads` and `load`, which
is external to this repository, at the document level.  Standard JSON parsing
rules return plain values: objects become string-keyed mappings in document
order, arrays become lists, scalars become the corresponding plain scalars. -/
def loads : Json → PyVal
  | .null => .none
  | .jbool b => .bool b
  | .jint n => .int n
  | .jstr s => .str s
  | .jarr xs => .pylist (loadsList xs)
  | .jobj kvs => .pydict (loadsPairs kvs)

/-- Parsing of the elements of an array (see `loads`). -/
def loadsList : List Json → List PyVal
  | [] => []
  | j :: js => loads j :: loadsList js

/-- Parsing of the members of an object (see `loads`). -/
def loadsPairs : List (String × Json) → List (PyVal × PyVal)
  | [] => []
  | (k, j) :: rest => (.str k, loads j) :: loadsPairs rest

end

/-- Membership of a string among the keys of a dict entry list. -/
def strKeyMem (s : String) : List (PyVal × PyVal) → Bool
  | [] => false
  | (k, _) :: rest =>
    (match k with
     | .str s2 => s2 == s
     | _ => false) || strKeyMem s rest

mutual

/-- Plain values: those composed solely of scalars, lists and string-keyed
mappings with pairwise distinct keys, exactly the values a parsed JSON
document can denote. -/
def isPlain : PyVal → Bool
  | .none => true
  | .bool _ => true
  | .int _ => true
  | .str _ => true
  | .pylist xs => isPlainList xs
  | .pydict kvs => isPlainPairs kvs
  | _ => false

/-- Plainness of the elements of a list (see `isPlain`). -/
def isPlainList : List PyVal → Bool
  | [] => true
  | x :: xs => isPlain x && isPlainList xs

/-- Plainness of the entries of a dict: string keys without repetition and
plain values (see `isPlain`). -/
def isPlainPairs : List (PyVal × PyVal) → Bool
  | [] => true
  | (k, v) :: rest =>
    match k with
    | .str s => isPlain v && !strKeyMem s rest && isPlainPairs rest
    | _ => false

end

mutual

/-- Values composed solely of scalars, sequences and string-keyed mappings in
the wording of the round-trip claim, where tuples count among the sequences. -/
def isPlainWide : PyVal → Bool
  | .none => true
  | .bool _ => true
  | .int _ => true
  | .str _ => true
  | .pylist xs => isPlainWideList xs
  | .pytuple xs => isPlainWideList xs
  | .pydict kvs => isPlainWidePairs kvs
  | _ => false

/-- Elementwise form of `isPlainWide` for sequences. -/
def isPlainWideList : List PyVal → Bool
  | [] => true
  | x :: xs => isPlainWide x && isPlainWideList xs

/-- Entrywise form of `isPlainWide` for mappings. -/
def isPlainWidePairs : List (PyVal × PyVal) → Bool
  | [] => true
  | (k, v) :: rest =>
    match k with
    | .str s => isPlainWide v && !strKeyMem s rest && isPlainWidePairs rest
    | _ => false

end

/-- Translation of the `cluster_class_dict` literal of cluster_class.py, as
the ordered list of key/value pairs written in the source, repetition
included. -/
def cluster_class_items : List (String × String) := [
  ("Putrescine2spermidine", "Aliphatic_amine"),
  ("HGD_related", "Putative"),
  ("Arginine2putrescine", "Aliphatic_amine"),
  ("PFOR_II_pathway", "SCFA"),
  ("NADH_dehydrogenase_I", "E-MGC"),
  ("Respiratory_glycerol", "E-MGC"),
  ("Formate_dehydrogenase", "E-MGC"),
  ("Ech_complex", "E-MGC"),
  ("Nitrate_reductase", "E-MGC"),
  ("Molybdopterin_dependent_oxidoreductase", "E-MGC"),
  ("Rnf_complex", "E-MGC"),
  ("Pyruvate2acetate-formate", "SCFA"),
  ("Sulfate2sulfide", "E-MGC"),
  ("Hydroxy-L-proline2proline", "Other"),
  ("Phenylacetate2toluene", "Aromatic"),
  ("Indoleacetate2scatole", "Aromatic"),
  ("Fumarate2succinate", "SCFA"),
  ("Acetyl-CoA_pathway", "SCFA"),
  ("hydroxybenzoate2phenol", "Aromatic"),
  ("pdu", "alcohol-SCFA"),
  ("EUT_pathway", "SCFA"),
  ("TMA", "Aliphatic_amine-SCFA"),
  ("p-cresol", "Aromatic"),
  ("Arginine2_Hcarbonate", "Other"),
  ("proline2aminovalerate", "npAA"),
  ("Leucine_reduction", "SCFA"),
  ("gallic_acid_met", "Aromatic"),
  ("bai_operon", "Other"),
  ("acetate2butyrate", "SCFA"),
  ("AAA_reductive_branch", "Aromatic"),
  ("porA", "SCFA"),
  ("Lysine_degradation", "SCFA"),
  ("glutamate2butyric", "SCFA"),
  ("caffeate_respiration", "Aromatic"),
  ("carnitine_degradaion_caiTABCDE", "npAA"),
  ("aminobutyrate2Butyrate", "SCFA"),
  ("succinate2propionate", "SCFA"),
  ("acrylate2propionate", "SCFA"),
  ("Threonine2propionate", "SCFA"),
  ("Glycine_reductase", "SCFA"),
  ("Glycine_cleavage", "Other"),
  ("histidine2glutamate_hutHGIU_operon", "Other"),
  ("succinate2propionate", "SCFA"),
  ("Oxidative_glycerol", "Other"),
  ("Flavoenzyme_AA_peptides_catabolism", "Putative"),
  ("Flavoenzyme_sugar_catabolism", "Putative"),
  ("Flavoenzyme_lipids_catabolism", "Putative"),
  ("OD_lactate_related", "Putative"),
  ("OD_eut_pdu_related", "Putative"),
  ("OD_AA_metabolism", "Putative"),
  ("OD_fatty_acids", "Putative"),
  ("OD_aldehydes_related", "Putative"),
  ("OD_unknown", "Putative"),
  ("TPP_fatty_acids", "Putative"),
  ("TPP_AA_metabolism", "Putative"),
  ("GR_AA_metabolism", "Putative"),
  ("GR_eut-pdu-related", "Putative"),
  ("GR_fatty_acids", "Putative"),
  ("OD_GR_eut_related", "Putative"),
  ("OD_GR_unassigned", "Putative"),
  ("Others_HGD_unassigned", "Putative"),
  ("fatty_acids-unassigned", "Putative")]

/-- Insertion of one key/value pair into a dict represented as an association
list: an existing key keeps its position and receives the new value, a new key
is appended, matching the evaluation of a Python dict literal. -/
def dict_insert : List (String × String) → String → String → List (String × String)
  | [], k, v => [(k, v)]
  | (k0, v0) :: rest, k, v =>
    if k0 = k then (k0, v) :: rest else (k0, v0) :: dict_insert rest k v

/-- Evaluation of a dict literal: the written pairs are inserted left to
right, so a repeated key keeps only its last-assigned value. -/
def dict_of_items (items : List (String × String)) : List (String × String) :=
  items.foldl (fun acc kv => dict_insert acc kv.1 kv.2) []

/-- The classification table: the evaluated `cluster_class_dict` literal. -/
def cluster_class_dict : List (String × String) := dict_of_items cluster_class_items

/-- Classification lookup: the label for an identifier, or not-found. -/
def dict_get (d : List (String × String)) (k : String) : Option String := d.lookup k

/-- Value of the last pair written for a key in a literal pair list, used to
state the last-write-wins semantics of dict literal evaluation. -/
def last_assigned (k : String) : List (String × String) → Option String
  | [] => Option.none
  | (k0, v0) :: rest =>
    match last_assigned k rest with
    | some v => some v
    | Option.none => if k0 = k then some v0 else Option.none

/-- Claim C2: for every value reaching the default-conversion hook, the hook
applies a fixed ordered fallback: a Seq is converted to its plain string form
(even when it also carries conversion methods), otherwise an exposed `to_json`
method is used (even when `__json__` is also exposed), otherwise an exposed
`__json__` method, and otherwise the hook raises. -/
theorem claim_C2 :
    (∀ s tj dj, _base_convertor (.seq s tj dj) = .ok (.str s))
    ∧ (∀ ty p dj, _base_convertor (.pyobj ty (some p) dj) = .ok p)
    ∧ (∀ ty q, _base_convertor (.pyobj ty Option.none (some q)) = .ok q)
    ∧ (∀ ty, _base_convertor (.pyobj ty Option.none Option.none) = .error .typeError) := by
  refine ⟨?_, ?_, ?_, ?_⟩ <;> intros <;> rfl

/-- Claim C5: encoding an object that reaches the default-conversion hook with
no applicable conversion (not a Seq, no `to_json`, no `__json__`) fails with
an error naming the type of the offending value; the hook itself raises a bare
TypeError. -/
theorem claim_C5 :
    ∀ ty, dumps (.pyobj ty Option.none Option.none) = .error (.jsonEncodeError ty)
      ∧ _base_convertor (.pyobj ty Option.none Option.none) = .error .typeError := by
  intro ty
  constructor
  · simp [dumps, encodeVal, _base_convertor, str_of_Seq, method_to_json, method_json_dunder,
      py_type_name]
  · rfl

/-- Claim C4: appending a non-JSONDomain value to an ORF wrapper raises
AssertionError (the TypeMismatchError of the spec) and leaves the receiver,
hence its domain list, unchanged; appending a JSONDomain to any reachable
JSONOrf state does not raise and only appends to the domain list. -/
theorem claim_C4 :
    (∀ orf d, isinstance_JSONDomain d = false →
        JSONOrf.add_domain orf d = (orf, some .assertionError))
    ∧ (∀ nm tl ds d, isinstance_JSONDomain d = true →
        JSONOrf.add_domain (JSONOrf.state nm tl ds) d
          = (JSONOrf.state nm tl (ds ++ [d]), Option.none)) := by
  constructor
  · intro orf d h
    simp [JSONOrf.add_domain, h]
  · intro nm tl ds d h
    simp [JSONOrf.add_domain, h, JSONOrf.state, List.lookup, attrsSet]

/-- Witness for claim C4 at concrete inputs: an integer argument is rejected
with the state unchanged, a constructed JSONDomain is appended. -/
theorem claim_C4_witness :
    JSONOrf.add_domain (JSONOrf.init "orf1" "MKT") (.int 3)
        = (JSONOrf.init "orf1" "MKT", some .assertionError)
    ∧ JSONOrf.add_domain (JSONOrf.init "orf1" "MKT")
          (JSONDomain.init "Condensation" 10 120 [("napdos", "A")] "http://x" "http://y" "MKT" "ATGAAAACG")
        = (JSONOrf.state "orf1" "MKT"
            [JSONDomain.init "Condensation" 10 120 [("napdos", "A")] "http://x" "http://y" "MKT" "ATGAAAACG"],
           Option.none) :=
  ⟨claim_C4.1 _ _ rfl, claim_C4.2 "orf1" "MKT" [] _ rfl⟩

/-- Claim C9: the inherited dict storage of the wrappers is empty after
construction and is preserved by every exposed operation, while the reported
length is the declared key count; iterating a constructed view as a plain dict
therefore yields no entries. -/
theorem claim_C9 :
    (∀ name start end_ preds nl bl sq dna,
        dict_storage (JSONDomain.init name start end_ preds nl bl sq dna) = []
        ∧ JSONBase.len (JSONDomain.init name start end_ preds nl bl sq dna) = 8)
    ∧ (∀ nm tl, dict_storage (JSONOrf.init nm tl) = []
        ∧ JSONBase.len (JSONOrf.init nm tl) = 3)
    ∧ (∀ orf d, dict_storage (JSONOrf.add_domain orf d).1 = dict_storage orf) := by
  refine ⟨fun _ _ _ _ _ _ _ _ => ⟨rfl, rfl⟩, fun _ _ => ⟨rfl, rfl⟩, ?_⟩
  intro orf d
  cases hd : isinstance_JSONDomain d
  · simp [JSONOrf.add_domain, hd]
  · cases orf
    case view cls decl attrs store =>
      cases hl : List.lookup "domains" attrs with
      | none => simp [JSONOrf.add_domain, hd, hl, dict_storage]
      | some v => cases v <;> simp [JSONOrf.add_domain, hd, hl, dict_storage]
    all_goals simp [JSONOrf.add_domain, hd, dict_storage]

/-- Claim C10: indexing a wrapper resolves purely by attribute lookup,
ignoring the declared key list: any key bound as an attribute is returned even
when undeclared, the bookkeeping key `_keys` returns the declared list, and a
key naming no attribute raises AttributeError rather than KeyError. -/
theorem claim_C10 :
    (∀ cls decl attrs store k v, k ≠ "_keys" → attrs.lookup k = some v →
        JSONBase.getitem (.view cls decl attrs store) k = .ok v)
    ∧ (∀ cls decl attrs store,
        JSONBase.getitem (.view cls decl attrs store) "_keys"
          = .ok (.pylist (decl.map .str)))
    ∧ (∀ cls decl attrs store k, k ≠ "_keys" → attrs.lookup k = Option.none →
        JSONBase.getitem (.view cls decl attrs store) k = .error (.attributeError k)) := by
  refine ⟨?_, ?_, ?_⟩
  · intro cls decl attrs store k v hk hl
    simp [JSONBase.getitem, JSONBase.getattr, viewAttr, hk, hl]
  · intro cls decl attrs store
    simp [JSONBase.getitem, JSONBase.getattr, viewAttr]
  · intro cls decl attrs store k hk hl
    simp [JSONBase.getitem, JSONBase.getattr, viewAttr, hk, hl]

/-- Witness for claim C10 at a concrete ORF wrapper: a declared key is read
from the attributes, the undeclared `_keys` attribute is still reachable, and
a missing name gives AttributeError. -/
theorem claim_C10_witness :
    JSONBase.getitem (JSONOrf.init "orf1" "MKT") "domains" = .ok (.pylist [])
    ∧ JSONBase.getitem (JSONOrf.init "orf1" "MKT") "_keys"
        = .ok (.pylist [.str "id", .str "sequence", .str "domains"])
    ∧ JSONBase.getitem (JSONOrf.init "orf1" "MKT") "translation"
        = .error (.attributeError "translation") :=
  ⟨claim_C10.1 "JSONOrf" ["id", "sequence", "domains"]
      [("sequence", .str "MKT"), ("id", .str "orf1"), ("domains", .pylist [])] []
      "domains" (.pylist []) (by decide) rfl,
   claim_C10.2.1 "JSONOrf" ["id", "sequence", "domains"]
      [("sequence", .str "MKT"), ("id", .str "orf1"), ("domains", .pylist [])] [],
   claim_C10.2.2 "JSONOrf" ["id", "sequence", "domains"]
      [("sequence", .str "MKT"), ("id", .str "orf1"), ("domains", .pylist [])] []
      "translation" (by decide) rfl⟩

/-- Reading the declared keys succeeds and lists them in order with their
attribute values whenever every declared key names an attribute. -/
theorem readDeclared_ok (self : PyVal) (ks : List String)
    (h : ∀ k ∈ ks, (JSONBase.getattr self k).isSome = true) :
    readDeclared self ks
      = .ok (ks.map (fun k => (k, (JSONBase.getattr self k).getD .none))) := by
  induction ks with
  | nil => rfl
  | cons k rest ih =>
    have hk := h k (by simp)
    have hrest : ∀ k2 ∈ rest, (JSONBase.getattr self k2).isSome = true :=
      fun k2 hk2 => h k2 (by simp [hk2])
    cases hg : JSONBase.getattr self k with
    | none => rw [hg] at hk; simp at hk
    | some v => simp [readDeclared, hg, ih hrest]

/-- Value analogue of `readDeclared_ok`. -/
theorem readDeclaredVals_ok (self : PyVal) (ks : List String)
    (h : ∀ k ∈ ks, (JSONBase.getattr self k).isSome = true) :
    readDeclaredVals self ks
      = .ok (ks.map (fun k => (JSONBase.getattr self k).getD .none)) := by
  induction ks with
  | nil => rfl
  | cons k rest ih =>
    have hk := h k (by simp)
    have hrest : ∀ k2 ∈ rest, (JSONBase.getattr self k2).isSome = true :=
      fun k2 hk2 => h k2 (by simp [hk2])
    cases hg : JSONBase.getattr self k with
    | none => rw [hg] at hk; simp at hk
    | some v => simp [readDeclaredVals, hg, ih hrest]

/-- Claim C8: a wrapper built over an ordered declared key list reports as its
length the number of declared keys, whatever the underlying attribute
dictionary holds, and its items and values iterations yield exactly the
declared keys in declaration order, each value obtained by attribute lookup of
the key on the instance. -/
theorem claim_C8 (cls : String) (decl : List String) (attrs : List (String × PyVal))
    (store : List (PyVal × PyVal))
    (h : ∀ k ∈ decl, (JSONBase.getattr (.view cls decl attrs store) k).isSome = true) :
    JSONBase.len (.view cls decl attrs store) = decl.length
    ∧ JSONBase.items (.view cls decl attrs store)
        = .ok (decl.map (fun k =>
            (k, (JSONBase.getattr (.view cls decl attrs store) k).getD .none)))
    ∧ JSONBase.values (.view cls decl attrs store)
        = .ok (decl.map (fun k =>
            (JSONBase.getattr (.view cls decl attrs store) k).getD .none)) := by
  refine ⟨rfl, ?_, ?_⟩
  · simpa [JSONBase.items] using readDeclared_ok (.view cls decl attrs store) decl h
  · simpa [JSONBase.values] using readDeclaredVals_ok (.view cls decl attrs store) decl h

/-- Witness for claim C8 at a concrete JSONDomain: eight declared keys, items
in declaration order. -/
theorem claim_C8_witness :
    JSONBase.len (JSONDomain.init "Condensation" 10 120 [("napdos", "A")] "http://x" "http://y" "MKT" "ATGAAAACG") = 8
    ∧ JSONBase.items (JSONDomain.init "Condensation" 10 120 [("napdos", "A")] "http://x" "http://y" "MKT" "ATGAAAACG")
        = .ok [("type", .str "Condensation"), ("start", .int 10), ("end", .int 120),
            ("predictions", .pylist [.pytuple [.str "napdos", .str "A"]]),
            ("napdoslink", .str "http://x"), ("blastlink", .str "http://y"),
            ("sequence", .str "MKT"), ("dna_sequence", .str "ATGAAAACG")] := by
  have h := claim_C8 "JSONDomain"
    ["type", "start", "end", "predictions", "napdoslink", "blastlink", "sequence", "dna_sequence"]
    [("type", .str "Condensation"), ("start", .int 10), ("end", .int 120),
     ("predictions", .pylist [.pytuple [.str "napdos", .str "A"]]),
     ("napdoslink", .str "http://x"), ("blastlink", .str "http://y"),
     ("sequence", .str "MKT"), ("dna_sequence", .str "ATGAAAACG")] []
    (by decide)
  exact ⟨h.1, by simpa using h.2.1⟩

/-- Claim C1: encoding the JSONDomain built from name Condensation, start 10,
end 120, one prediction pair, the two links, the protein and dna strings
yields a JSON object whose keys are exactly type, start, end, predictions,
napdoslink, blastlink, sequence, dna_sequence in declaration order, with start
and end as JSON numbers and predictions as an array of 2-element arrays. -/
theorem claim_C1 :
    dumps (JSONDomain.init "Condensation" 10 120 [("napdos", "A")] "http://x" "http://y" "MKT" "ATGAAAACG")
      = .ok (.jobj [("type", .jstr "Condensation"), ("start", .jint 10), ("end", .jint 120),
          ("predictions", .jarr [.jarr [.jstr "napdos", .jstr "A"]]),
          ("napdoslink", .jstr "http://x"), ("blastlink", .jstr "http://y"),
          ("sequence", .jstr "MKT"), ("dna_sequence", .jstr "ATGAAAACG")]) := by
  simp [dumps, JSONDomain.init, encodeVal, encodeVals, encodeDecl, encodePairs, viewAttr,
    keyToString, List.lookup]

/-- Size of a list member. -/
theorem psize_mem_le (x : PyVal) (xs : List PyVal) (h : x ∈ xs) : psize x ≤ psizeList xs := by
  induction xs with
  | nil => simp at h
  | cons y ys ih =>
    rcases List.mem_cons.mp h with h1 | h2
    · subst h1; simp [psizeList]; omega
    · have := ih h2; simp [psizeList]; omega

/-- Size of a dict entry value. -/
theorem psize_pair_mem_le (p : PyVal × PyVal) (kvs : List (PyVal × PyVal)) (h : p ∈ kvs) :
    psize p.2 ≤ psizePairs kvs := by
  induction kvs with
  | nil => simp at h
  | cons q qs ih =>
    rcases List.mem_cons.mp h with h1 | h2
    · subst h1; cases p; simp [psizePairs]; omega
    · have := ih h2; cases q; simp [psizePairs]; omega

/-- List step of the round-trip argument: if every member encodes to a
document that parses back to itself, so does the member list. -/
theorem roundtrip_list (xs : List PyVal)
    (ih : ∀ y ∈ xs, isPlain y = true → (encodeVal y).map loads = .ok y)
    (h : isPlainList xs = true) : (encodeVals xs).map loadsList = .ok xs := by
  induction xs with
  | nil => simp [encodeVals, Except.map, loadsList]
  | cons y ys ihl =>
    simp [isPlainList] at h
    have hy := ih y (by simp) h.1
    have hys := ihl (fun z hz hp => ih z (by simp [hz]) hp) h.2
    cases hey : encodeVal y with
    | error e => rw [hey] at hy; simp [Except.map] at hy
    | ok j =>
      rw [hey] at hy
      simp [Except.map] at hy
      cases heys : encodeVals ys with
      | error e => rw [heys] at hys; simp [Except.map] at hys
      | ok js =>
        rw [heys] at hys
        simp [Except.map] at hys
        simp [encodeVals, hey, heys, Except.map, loadsList, hy, hys]

/-- Dict step of the round-trip argument: entries with string keys and
round-tripping values round-trip as a member list. -/
theorem roundtrip_pairs (kvs : List (PyVal × PyVal))
    (ih : ∀ p ∈ kvs, isPlain p.2 = true → (encodeVal p.2).map loads = .ok p.2)
    (h : isPlainPairs kvs = true) : (encodePairs kvs).map loadsPairs = .ok kvs := by
  induction kvs with
  | nil => simp [encodePairs, Except.map, loadsPairs]
  | cons q rest ihl =>
    obtain ⟨k, v⟩ := q
    cases k <;> simp [isPlainPairs] at h
    case str s =>
      have hv := ih (.str s, v) (by simp) h.1.1
      have hrest := ihl (fun p hp hpl => ih p (by simp [hp]) hpl) h.2
      cases hev : encodeVal v with
      | error e => rw [hev] at hv; simp [Except.map] at hv
      | ok jv =>
        rw [hev] at hv
        simp [Except.map] at hv
        cases herest : encodePairs rest with
        | error e => rw [herest] at hrest; simp [Except.map] at hrest
        | ok jrest =>
          rw [herest] at hrest
          simp [Except.map] at hrest
          simp [encodePairs, keyToString, hev, herest, Except.map, loadsPairs, hv, hrest]

/-- Round-trip for plain values, by strong induction on the size measure. -/
theorem roundtrip_val (n : Nat) : ∀ x, psize x ≤ n → isPlain x = true →
    (encodeVal x).map loads = .ok x := by
  induction n with
  | zero =>
    intro x hx
    exfalso
    cases x <;> simp [psize] at hx
  | succ n ihn =>
    intro x hx hp
    cases x with
    | none => simp [encodeVal, Except.map, loads]
    | bool b => simp [encodeVal, Except.map, loads]
    | int m => simp [encodeVal, Except.map, loads]
    | str s => simp [encodeVal, Except.map, loads]
    | pylist xs =>
      simp [isPlain] at hp
      have hsz : psizeList xs ≤ n := by simp [psize] at hx; omega
      have hlist := roundtrip_list xs
        (fun y hy hpy => ihn y (le_trans (psize_mem_le y xs hy) hsz) hpy) hp
      cases he : encodeVals xs with
      | error e => rw [he] at hlist; simp [Except.map] at hlist
      | ok js =>
        rw [he] at hlist
        simp [Except.map] at hlist
        simp [encodeVal, he, Except.map, loads, hlist]
    | pydict kvs =>
      simp [isPlain] at hp
      have hsz : psizePairs kvs ≤ n := by simp [psize] at hx; omega
      have hpairs := roundtrip_pairs kvs
        (fun p hp2 hpl => ihn p.2 (le_trans (psize_pair_mem_le p kvs hp2) hsz) hpl) hp
      cases he : encodePairs kvs with
      | error e => rw [he] at hpairs; simp [Except.map] at hpairs
      | ok jkvs =>
        rw [he] at hpairs
        simp [Except.map] at hpairs
        simp [encodeVal, he, Except.map, loads, hpairs]
    | pytuple xs => simp [isPlain] at hp
    | seq s tj dj => simp [isPlain] at hp
    | pyobj ty tj dj => simp [isPlain] at hp
    | view cls decl attrs store => simp [isPlain] at hp

/-- Counterexample to claim C3 as stated: the empty-prediction tuple value is
composed solely of scalars, sequences and string-keyed mappings (tuples being
sequences, encoded directly as arrays), yet decoding its encoding yields the
corresponding list, not the tuple itself. -/
theorem claim_C3_counterexample :
    isPlainWide (.pytuple [.int 1]) = true
    ∧ (dumps (.pytuple [.int 1])).map loads ≠ .ok (.pytuple [.int 1]) := by
  constructor
  · rfl
  · simp [dumps, encodeVal, encodeVals, Except.map, loads, loadsList]

/-- Claim C3 amended: decoding the encoding reproduces the value for every
value composed solely of scalars, lists and string-keyed mappings; tuples are
excluded, since a tuple is encoded as a JSON array and decodes to a list. -/
theorem claim_C3_amended (x : PyVal) (h : isPlain x = true) :
    (dumps x).map loads = .ok x :=
  roundtrip_val (psize x) x le_rfl h

/-- Witness for the amended claim C3 at a concrete nested value. -/
theorem claim_C3_witness :
    isPlain (.pydict [(.str "a", .pylist [.int 1, .str "b"]), (.str "c", .none)]) = true
    ∧ (dumps (.pydict [(.str "a", .pylist [.int 1, .str "b"]), (.str "c", .none)])).map loads
        = .ok (.pydict [(.str "a", .pylist [.int 1, .str "b"]), (.str "c", .none)]) :=
  ⟨rfl, claim_C3_amended (.pydict [(.str "a", .pylist [.int 1, .str "b"]), (.str "c", .none)]) rfl⟩

/-- Flag membership in terms of bits. -/
theorem hasFlag_two_pow (x k : Nat) : hasFlag x (2 ^ k) = x.testBit k := by
  unfold hasFlag
  rw [Nat.and_two_pow]
  cases h : x.testBit k
  · have hpos := Nat.two_pow_pos k
    simp only [Bool.toNat_false, Nat.zero_mul]
    rw [beq_eq_false_iff_ne]
    omega
  · simp

/-- Combining in a flag makes the result include it. -/
theorem hasFlag_or_same (x k : Nat) : hasFlag (x ||| 2 ^ k) (2 ^ k) = true := by
  rw [hasFlag_two_pow]
  simp [Nat.testBit_two_pow_self]

/-- Combining in a different flag bit leaves a flag unchanged. -/
theorem hasFlag_or_other (x j k : Nat) (h : j ≠ k) :
    hasFlag (x ||| 2 ^ j) (2 ^ k) = hasFlag x (2 ^ k) := by
  rw [hasFlag_two_pow, hasFlag_two_pow]
  simp [Nat.testBit_two_pow_of_ne h]

/-- Counterexample to claim C6 as stated: the claim demands, for every base
option value, that the option word include the sort-keys flag exactly when
`sort_keys` is set; at base option `OPT_SORT_KEYS` with `sort_keys` unset the
flag is nonetheless included, so the only-if direction fails. -/
theorem claim_C6_counterexample :
    hasFlag (_convert_std_to_orson false OPT_SORT_KEYS false) OPT_SORT_KEYS = true := by decide

/-- Claim C6 amended: the option word passed to the underlying encoder always
includes the non-string-key coercion flag; it includes the sort-keys flag
whenever `sort_keys` is set, and exactly then provided the base option does
not already carry that flag; likewise the 2-space indent flag for `indent`;
and non-string mapping keys are stringified rather than rejected on every
encode call. -/
theorem claim_C6_amended (sort_keys indent : Bool) (option : Nat) :
    hasFlag (_convert_std_to_orson sort_keys option indent) OPT_NON_STR_KEYS = true
    ∧ (sort_keys = true →
        hasFlag (_convert_std_to_orson sort_keys option indent) OPT_SORT_KEYS = true)
    ∧ (indent = true →
        hasFlag (_convert_std_to_orson sort_keys option indent) OPT_INDENT_2 = true)
    ∧ (hasFlag option OPT_SORT_KEYS = false →
        hasFlag (_convert_std_to_orson sort_keys option indent) OPT_SORT_KEYS = sort_keys)
    ∧ (hasFlag option OPT_INDENT_2 = false →
        hasFlag (_convert_std_to_orson sort_keys option indent) OPT_INDENT_2 = indent)
    ∧ (∀ n : Int, dumps (.pydict [(.int n, .none)]) = .ok (.jobj [(toString n, .null)])) := by
  have h1 : ∀ x : Nat, hasFlag x 1 = x.testBit 0 := fun x => by
    have := hasFlag_two_pow x 0
    rwa [Nat.pow_zero] at this
  have h2 : ∀ x : Nat, hasFlag x 2 = x.testBit 1 := fun x => by
    have := hasFlag_two_pow x 1
    rwa [Nat.pow_one] at this
  have h4 : ∀ x : Nat, hasFlag x 4 = x.testBit 2 := fun x => by
    have := hasFlag_two_pow x 2
    rwa [show (2 : Nat) ^ 2 = 4 from rfl] at this
  have t10 : Nat.testBit 1 0 = true := by decide
  have t11 : Nat.testBit 1 1 = false := by decide
  have t12 : Nat.testBit 1 2 = false := by decide
  have t20 : Nat.testBit 2 0 = false := by decide
  have t21 : Nat.testBit 2 1 = true := by decide
  have t22 : Nat.testBit 2 2 = false := by decide
  have t40 : Nat.testBit 4 0 = false := by decide
  have t41 : Nat.testBit 4 1 = false := by decide
  have t42 : Nat.testBit 4 2 = true := by decide
  unfold _convert_std_to_orson OPT_NON_STR_KEYS OPT_SORT_KEYS OPT_INDENT_2
  refine ⟨?_, ?_, ?_, ?_, ?_, ?_⟩
  · cases sort_keys <;> cases indent <;>
      simp [h1, h2, h4, t10, t11, t12, t20, t21, t22, t40, t41, t42]
  · intro hs
    subst hs
    cases indent <;> simp [h1, h2, h4, t10, t11, t12, t20, t21, t22, t40, t41, t42]
  · intro hi
    subst hi
    cases sort_keys <;> simp [h1, h2, h4, t10, t11, t12, t20, t21, t22, t40, t41, t42]
  · intro h
    norm_num at h
    rw [h4] at h
    cases sort_keys <;> cases indent <;>
      simp [h1, h2, h4, t10, t11, t12, t20, t21, t22, t40, t41, t42, h]
  · intro h
    norm_num at h
    rw [h1] at h
    have hm : option % 2 = 0 := by
      have hx := h
      simp [Nat.testBit_zero] at hx
      omega
    cases sort_keys <;> cases indent <;>
      simp [h1, h2, h4, t10, t11, t12, t20, t21, t22, t40, t41, t42, h, hm]
  · intro n
    simp [dumps, encodeVal, encodePairs, keyToString]

/-- Witness for the amended claim C6 at concrete inputs: with defaults the
sort flag is absent and the coercion flag present; with `sort_keys` set the
sort flag is present; an integer-keyed mapping is encoded with the key
stringified. -/
theorem claim_C6_witness :
    hasFlag (_convert_std_to_orson true 0 true) OPT_SORT_KEYS = true
    ∧ hasFlag (_convert_std_to_orson false 0 false) OPT_SORT_KEYS = false
    ∧ hasFlag (_convert_std_to_orson false 0 false) OPT_NON_STR_KEYS = true
    ∧ dumps (.pydict [(.int 7, .none)]) = .ok (.jobj [("7", .null)]) :=
  ⟨(claim_C6_amended true true 0).2.1 rfl,
   (claim_C6_amended false false 0).2.2.2.1 (by decide),
   (claim_C6_amended false false 0).1,
   (claim_C6_amended false false 0).2.2.2.2.2 7⟩

/-- Looking up the key just inserted returns the inserted value. -/
theorem dict_get_insert_self (d : List (String × String)) (k v : String) :
    dict_get (dict_insert d k v) k = some v := by
  induction d with
  | nil => simp [dict_insert, dict_get, List.lookup]
  | cons p rest ih =>
    obtain ⟨k0, v0⟩ := p
    by_cases h : k0 = k
    · subst h
      simp [dict_insert, dict_get, List.lookup]
    · have h2 : (k == k0) = false := beq_eq_false_iff_ne.mpr (fun hh => h hh.symm)
      simp [dict_insert, dict_get, List.lookup, h, h2] at ih ⊢
      exact ih

/-- Looking up another key is unaffected by an insertion. -/
theorem dict_get_insert_other (d : List (String × String)) (k v k2 : String)
    (h : k2 ≠ k) : dict_get (dict_insert d k v) k2 = dict_get d k2 := by
  induction d with
  | nil =>
    have h2 : (k2 == k) = false := beq_eq_false_iff_ne.mpr h
    simp [dict_insert, dict_get, List.lookup, h2]
  | cons p rest ih =>
    obtain ⟨k0, v0⟩ := p
    by_cases h0 : k0 = k
    · subst h0
      have h2 : (k2 == k0) = false := beq_eq_false_iff_ne.mpr h
      simp [dict_insert, dict_get, List.lookup, h2]
    · simp only [dict_insert, if_neg h0]
      cases hk2 : (k2 == k0)
      · simp [dict_get, List.lookup, hk2] at ih ⊢
        exact ih
      · simp [dict_get, List.lookup, hk2]

/-- Evaluating a dict literal left to right gives, for each key, the value of
its last written pair, with a fallback to the accumulator. -/
theorem fold_insert_get (items : List (String × String)) (k : String) :
    ∀ acc, dict_get (items.foldl (fun acc kv => dict_insert acc kv.1 kv.2) acc) k
      = match last_assigned k items with
        | some v => some v
        | Option.none => dict_get acc k := by
  induction items with
  | nil =>
    intro acc
    simp [last_assigned]
  | cons kv rest ih =>
    intro acc
    obtain ⟨k0, v0⟩ := kv
    simp only [List.foldl_cons]
    rw [ih]
    cases hr : last_assigned k rest with
    | some v => simp [last_assigned, hr]
    | none =>
      simp only [last_assigned, hr]
      by_cases hk : k0 = k
      · subst hk
        simp [dict_get_insert_self]
      · have h2 : k ≠ k0 := fun hh => hk hh.symm
        rw [dict_get_insert_other acc k0 v0 k h2]
        simp [hk]

/-- A key has a last-assigned value exactly when the pair list mentions it. -/
theorem last_assigned_isSome (k : String) (items : List (String × String)) :
    (last_assigned k items).isSome = true ↔ k ∈ items.map Prod.fst := by
  induction items with
  | nil => simp [last_assigned]
  | cons kv rest ih =>
    obtain ⟨k0, v0⟩ := kv
    rw [List.map_cons, List.mem_cons]
    cases hr : last_assigned k rest with
    | some v =>
      constructor
      · intro _
        exact Or.inr (ih.mp (by simp [hr]))
      · intro _
        simp [last_assigned, hr]
    | none =>
      constructor
      · intro hs
        by_cases hk : k0 = k
        · exact Or.inl hk.symm
        · exfalso
          simp [last_assigned, hr, hk] at hs
      · intro hmem
        rcases hmem with hmem | hmem
        · have hk : k = k0 := hmem
          subst hk
          simp [last_assigned, hr]
        · have hsome := ih.mpr hmem
          rw [hr] at hsome
          simp at hsome

/-- Claim C7: classification lookup is a pure function of the fixed table;
every identifier written in the literal is found, every other identifier is
reported not-found, a repeated key keeps only its last-assigned value, and the
repeated key succinate2propionate maps to SCFA while occurring twice in the
source literal. -/
theorem claim_C7 :
    (∀ k, (dict_get cluster_class_dict k).isSome = true ↔ k ∈ cluster_class_items.map Prod.fst)
    ∧ (∀ k, dict_get cluster_class_dict k = last_assigned k cluster_class_items)
    ∧ dict_get cluster_class_dict "succinate2propionate" = some "SCFA"
    ∧ (cluster_class_items.map Prod.fst).count "succinate2propionate" = 2 := by
  have h2 : ∀ k, dict_get cluster_class_dict k = last_assigned k cluster_class_items := by
    intro k
    have h := fold_insert_get cluster_class_items k []
    rw [show cluster_class_dict = cluster_class_items.foldl (fun acc kv => dict_insert acc kv.1 kv.2) [] from rfl] at *
    rw [h]
    cases hl : last_assigned k cluster_class_items <;> simp [dict_get, List.lookup]
  refine ⟨?_, h2, ?_, ?_⟩
  · intro k
    rw [h2 k]
    exact last_assigned_isSome k cluster_class_items
  · rw [h2]
    rfl
  · rfl

/-- Witness for claim C7 at concrete identifiers: a present key is found with
its label, and the repeated key resolves to its last-assigned value. -/
theorem claim_C7_witness :
    (dict_get cluster_class_dict "pdu").isSome = true
    ∧ dict_get cluster_class_dict "succinate2propionate" = some "SCFA" :=
  ⟨(claim_C7.1 "pdu").mpr (by decide), claim_C7.2.2.1⟩
